import Mathlib

/-!
Shallow embedding of the `configuration` Go package (`configuration.go`):
a live-reloading key-value configuration store backed by a text file of
`key=value` / `key:value` lines.

Modelling choices:
* The Go field `parameters : map[string]string` is represented as
  `Option (List (String × String))`.  `none` is the nil map — the zero
  value of a Go map, which `NewWithContext` in the source never replaces
  with an initialised map (there is no `make` call).  `some l` is an
  initialised map represented as an association list with unique keys.
  Reading from a nil map yields the zero value, but writing to a nil map
  is a Go runtime panic; panics are modelled by `Except GoPanic`.
* File-system interaction (`os.Stat`, then `os.Open` plus a line
  scanner) is a parameter of type `FileSystem`; modification times are
  `Int` nanoseconds since the epoch (`time.Time.UnixNano`), and
  `ModTime().After(time.Unix(0, c.lastupdate))` is the strict
  comparison `mt > c.lastupdate`.
* Output of `log.Printf` is collected as a `List LogEvent`.  A log line
  emitted immediately before a panicking map write is not recorded,
  because the panic aborts the whole call before it returns any state.
* The `sync.RWMutex`, the background goroutine and the `context`
  argument are concurrency machinery outside this sequential model;
  each public operation is modelled as one atomic state transformation,
  which is exactly what the lock discipline guarantees observationally.
-/

/-- Character-level model of Go `unicode.IsSpace`: the Unicode
White_Space property, enumerated explicitly. -/
def goIsSpace (c : Char) : Bool :=
  c.val == 0x9 || c.val == 0xA || c.val == 0xB || c.val == 0xC || c.val == 0xD ||
  c.val == 0x20 || c.val == 0x85 || c.val == 0xA0 || c.val == 0x1680 ||
  c.val == 0x2000 || c.val == 0x2001 || c.val == 0x2002 || c.val == 0x2003 ||
  c.val == 0x2004 || c.val == 0x2005 || c.val == 0x2006 || c.val == 0x2007 ||
  c.val == 0x2008 || c.val == 0x2009 || c.val == 0x200A || c.val == 0x2028 ||
  c.val == 0x2029 || c.val == 0x202F || c.val == 0x205F || c.val == 0x3000

/-- Model of Go `strings.TrimSpace`: drop leading and trailing
whitespace characters. -/
def goTrimSpace (s : String) : String :=
  ⟨((s.toList.dropWhile goIsSpace).reverse.dropWhile goIsSpace).reverse⟩

/-- The two parse failures of `SplitConfigurationFileLine`:
`ErrEmptyParameter` and the ad-hoc missing-delimiter error. -/
inductive SplitError where
  | emptyParameter : SplitError
  | missingDelimiter : SplitError
deriving DecidableEq, Repr

/-- A delimiter character of a configuration line, as searched for by
`strings.IndexAny(s, "=:")`. -/
def isDelimiter (c : Char) : Bool :=
  c == '=' || c == ':'

/-- Index of the positionally first delimiter character, the
character-level reading of `strings.IndexAny(s, "=:")` (both delimiter
characters are single-byte, so byte and character indices agree for the
purpose of the split). -/
def firstDelimiterIdx : List Char → Option Nat
  | [] => none
  | c :: rest => if isDelimiter c then some 0 else (firstDelimiterIdx rest).map (· + 1)

/-- Model of `SplitConfigurationFileLine` (configuration.go lines
73-82): trim the line; an empty trimmed line is `ErrEmptyParameter`; a
trimmed line without `=` or `:` is a missing-delimiter error; otherwise
split at the first delimiter, without further trimming. -/
def SplitConfigurationFileLine (s : String) : Except SplitError (String × String) :=
  if (goTrimSpace s).toList.isEmpty then
    .error .emptyParameter
  else
    match firstDelimiterIdx (goTrimSpace s).toList with
    | none => .error .missingDelimiter
    | some i =>
      .ok (⟨(goTrimSpace s).toList.take i⟩, ⟨(goTrimSpace s).toList.drop (i + 1)⟩)

/-- The only Go runtime panic this code can raise: assignment to an
entry in a nil map. -/
inductive GoPanic where
  | nilMapWrite : GoPanic
deriving DecidableEq, Repr

/-- One `log.Printf` call, by call site. -/
inductive LogEvent where
  | statError (filename : String) : LogEvent
  | openError (filename : String) : LogEvent
  | parseError (line : String) : LogEvent
  | updateStored (key value : String) : LogEvent
  | updateChanged (key oldValue newValue : String) : LogEvent
  | setStored (key value : String) : LogEvent
  | setChanged (key oldValue newValue : String) : LogEvent
deriving DecidableEq, Repr

/-- The `Configuration` struct.  `ShouldLogUpdates` is an
`atomic.Bool` in the source; sequentially it is a plain `Bool`. -/
structure Configuration where
  filename : String
  lastupdate : Int
  parameters : Option (List (String × String))
  shouldLogUpdates : Bool
deriving DecidableEq, Repr

/-- Lookup in an initialised map (association list). -/
def assocLookup : List (String × String) → String → Option String
  | [], _ => none
  | (k', v') :: rest, k => if k' = k then some v' else assocLookup rest k

/-- Insert-or-overwrite in an initialised map (association list). -/
def assocInsert : List (String × String) → String → String → List (String × String)
  | [], k, v => [(k, v)]
  | (k', v') :: rest, k, v =>
    if k' = k then (k, v) :: rest else (k', v') :: assocInsert rest k v

/-- Go map read `c.parameters[key]`: reading a nil map yields no entry
(the caller then takes the zero value). -/
def mapLookup (params : Option (List (String × String))) (key : String) : Option String :=
  match params with
  | none => none
  | some l => assocLookup l key

/-- Go map write `c.parameters[key] = value`: writing to a nil map
panics. -/
def mapInsert (params : Option (List (String × String))) (key value : String) :
    Except GoPanic (List (String × String)) :=
  match params with
  | none => .error .nilMapWrite
  | some l => .ok (assocInsert l key value)

/-- `Get` (configuration.go lines 57-61): the stored value, or the zero
value `""` if absent.  Total: map reads cannot fail. -/
def Configuration.Get (c : Configuration) (key : String) : String :=
  (mapLookup c.parameters key).getD ""

/-- `GetSlice` (configuration.go lines 63-71). -/
def Configuration.GetSlice (c : Configuration) (keys : List String) : List String :=
  keys.map fun key => (mapLookup c.parameters key).getD ""

/-- `SetKeyValue` (configuration.go lines 44-55): no-op when the key
already holds exactly this value; otherwise log (if enabled) and store,
where the store is a map write and hence panics on the nil map. -/
def Configuration.SetKeyValue (c : Configuration) (key value : String) :
    Except GoPanic (Configuration × List LogEvent) :=
  match mapLookup c.parameters key with
  | some stored =>
    if stored = value then
      .ok (c, [])
    else
      match mapInsert c.parameters key value with
      | .error e => .error e
      | .ok l =>
        .ok ({ c with parameters := some l },
          if c.shouldLogUpdates then [.setChanged key stored value] else [])
  | none =>
    match mapInsert c.parameters key value with
    | .error e => .error e
    | .ok l =>
      .ok ({ c with parameters := some l },
        if c.shouldLogUpdates then [.setStored key value] else [])

/-- One iteration of the scan loop in `update` (configuration.go lines
106-124): parse the line; skip `ErrEmptyParameter` silently and other
parse errors with a log line (if enabled); on success apply the same
no-op / add / overwrite semantics as `SetKeyValue` directly against the
map. -/
def applyConfigLine (shouldLog : Bool) (params : Option (List (String × String)))
    (line : String) : Except GoPanic (Option (List (String × String)) × List LogEvent) :=
  match SplitConfigurationFileLine line with
  | .error e =>
    if e = .emptyParameter then .ok (params, [])
    else .ok (params, if shouldLog then [.parseError line] else [])
  | .ok kv =>
    match mapLookup params kv.1 with
    | some stored =>
      if stored = kv.2 then
        .ok (params, [])
      else
        match mapInsert params kv.1 kv.2 with
        | .error e => .error e
        | .ok l =>
          .ok (some l, if shouldLog then [.updateChanged kv.1 stored kv.2] else [])
    | none =>
      match mapInsert params kv.1 kv.2 with
      | .error e => .error e
      | .ok l =>
        .ok (some l, if shouldLog then [.updateStored kv.1 kv.2] else [])

/-- The whole scan loop of `update`, over the file's lines in order. -/
def applyConfigLines (shouldLog : Bool) (params : Option (List (String × String))) :
    List String → Except GoPanic (Option (List (String × String)) × List LogEvent)
  | [] => .ok (params, [])
  | line :: rest =>
    match applyConfigLine shouldLog params line with
    | .error e => .error e
    | .ok r =>
      match applyConfigLines shouldLog r.1 rest with
      | .error e => .error e
      | .ok r' => .ok (r'.1, r.2 ++ r'.2)

/-- Result of `os.Stat`: the file does not exist, the stat fails for
another reason, or it succeeds with a modification time. -/
inductive StatResult where
  | notExist : StatResult
  | statFailed : StatResult
  | found (modTimeNano : Int) : StatResult
deriving DecidableEq, Repr

/-- The file system seen by the store: `os.Stat`, and `os.Open`
followed by a line scan (`none` when the open fails). -/
structure FileSystem where
  stat : String → StatResult
  readLines : String → Option (List String)

/-- The private `update` (configuration.go lines 90-127), the
reconciliation pass: stat (not-exist is silent, other stat failures are
logged); return unless the modification time is strictly after
`lastupdate`; open (failures logged); scan line by line; finally set
`lastupdate` to the modification time observed by the stat. -/
def Configuration.update (fs : FileSystem) (c : Configuration) :
    Except GoPanic (Configuration × List LogEvent) :=
  match fs.stat c.filename with
  | .notExist => .ok (c, [])
  | .statFailed => .ok (c, [.statError c.filename])
  | .found mt =>
    if mt > c.lastupdate then
      match fs.readLines c.filename with
      | none => .ok (c, [.openError c.filename])
      | some lines =>
        match applyConfigLines c.shouldLogUpdates c.parameters lines with
        | .error e => .error e
        | .ok r => .ok ({ c with parameters := r.1, lastupdate := mt }, r.2)
    else
      .ok (c, [])

/-- The public `Update` (configuration.go lines 84-88): take the lock
and run one reconciliation pass. -/
def Configuration.Update (fs : FileSystem) (c : Configuration) :
    Except GoPanic (Configuration × List LogEvent) :=
  Configuration.update fs c

/-- `SetFilename` (configuration.go lines 34-42): if the path differs,
store it and reset `lastupdate` to zero; then run one reconciliation
pass while still holding the lock. -/
def Configuration.SetFilename (fs : FileSystem) (c : Configuration) (filename : String) :
    Except GoPanic (Configuration × List LogEvent) :=
  Configuration.update fs
    (if c.filename ≠ filename then { c with filename := filename, lastupdate := 0 } else c)

/-- The logging toggle chosen by `NewWithContext` (configuration.go
lines 137-143): the single variadic value when exactly one was passed,
otherwise the process-wide `DefaultShouldLog` (here a parameter). -/
def initialShouldLog (defaultShouldLog : Bool) (shouldLog : List Bool) : Bool :=
  match shouldLog with
  | [b] => b
  | _ => defaultShouldLog

/-- `NewWithContext` (configuration.go lines 133-158): build the struct
with only `filename` set — `lastupdate` is zero, `parameters` stays the
nil map — store the logging toggle, and run one synchronous
reconciliation pass before returning.  The background ticker goroutine
is concurrency wiring outside this sequential model. -/
def NewWithContext (fs : FileSystem) (defaultShouldLog : Bool) (filename : String)
    (shouldLog : List Bool) : Except GoPanic (Configuration × List LogEvent) :=
  Configuration.update fs
    { filename := filename
      lastupdate := 0
      parameters := none
      shouldLogUpdates := initialShouldLog defaultShouldLog shouldLog }

/-- `New` (configuration.go lines 129-131): `NewWithContext` with the
background context. -/
def New (fs : FileSystem) (defaultShouldLog : Bool) (filename : String)
    (shouldLog : List Bool) : Except GoPanic (Configuration × List LogEvent) :=
  NewWithContext fs defaultShouldLog filename shouldLog

/-- A file system on which every path is absent. -/
def fsNone : FileSystem :=
  { stat := fun _ => StatResult.notExist, readLines := fun _ => none }

/-- Every path holds the two lines `a=1`, `b=2`, modified at time 100. -/
def fsAB : FileSystem :=
  { stat := fun _ => StatResult.found 100, readLines := fun _ => some ["a=1", "b=2"] }

/-- Every path holds the single line `a=1`, modified at time 100. -/
def fsA1 : FileSystem :=
  { stat := fun _ => StatResult.found 100, readLines := fun _ => some ["a=1"] }

/-- Every path holds the single line `b=2`, modified at time 7. -/
def fsB2 : FileSystem :=
  { stat := fun _ => StatResult.found 7, readLines := fun _ => some ["b=2"] }

/-- Every path holds the single line `k=v`, modified at time 50. -/
def fsNew : FileSystem :=
  { stat := fun _ => StatResult.found 50, readLines := fun _ => some ["k=v"] }

/-- The store `New` returns when the file is absent at construction:
the nil parameters map, `lastupdate` zero. -/
def cNil : Configuration :=
  { filename := "config.txt", lastupdate := 0, parameters := none, shouldLogUpdates := true }

/-- Like `cNil` but with logging switched off by a variadic `false`. -/
def cW1 : Configuration :=
  { filename := "f", lastupdate := 0, parameters := none, shouldLogUpdates := false }

/-- A store whose (initialised) map holds `k ↦ v`. -/
def cKV : Configuration :=
  { filename := "config.txt", lastupdate := 0, parameters := some [("k", "v")],
    shouldLogUpdates := true }

/-- `cKV` after one reconciliation pass against `fsA1`. -/
def cKV1 : Configuration :=
  { filename := "config.txt", lastupdate := 100, parameters := some [("k", "v"), ("a", "1")],
    shouldLogUpdates := true }

/-- `cKV` after `SetKeyValue "x" "y"`. -/
def cKVxy : Configuration :=
  { filename := "config.txt", lastupdate := 0, parameters := some [("k", "v"), ("x", "y")],
    shouldLogUpdates := true }

/-- A store whose map is initialised but empty. -/
def cEmptyMap : Configuration :=
  { filename := "f", lastupdate := 0, parameters := some [], shouldLogUpdates := true }

/-- `cEmptyMap` after `SetKeyValue "a" "b"`. -/
def cASome : Configuration :=
  { filename := "f", lastupdate := 0, parameters := some [("a", "b")], shouldLogUpdates := true }

theorem toList_mk (l : List Char) : (⟨l⟩ : String).toList = l := rfl

theorem assocLookup_assocInsert_self (l : List (String × String)) (k v : String) :
    assocLookup (assocInsert l k v) k = some v := by
  induction l with
  | nil => simp [assocInsert, assocLookup]
  | cons hd tl ih =>
    obtain ⟨k', v'⟩ := hd
    by_cases h : k' = k
    · simp [assocInsert, assocLookup, h]
    · simp [assocInsert, assocLookup, h, ih]

theorem assocLookup_assocInsert_ne (l : List (String × String)) (k v k₂ : String)
    (h : k₂ ≠ k) :
    assocLookup (assocInsert l k v) k₂ = assocLookup l k₂ := by
  induction l with
  | nil => simp [assocInsert, assocLookup, Ne.symm h]
  | cons hd tl ih =>
    obtain ⟨k', v'⟩ := hd
    by_cases hk : k' = k
    · simp [assocInsert, assocLookup, hk, Ne.symm h]
    · simp [assocInsert, assocLookup, hk, ih]

theorem assocLookup_assocInsert_isSome (l : List (String × String)) (k v k₂ : String)
    (h : (assocLookup l k₂).isSome = true) :
    (assocLookup (assocInsert l k v) k₂).isSome = true := by
  by_cases hk : k₂ = k
  · subst hk
    rw [assocLookup_assocInsert_self]
    rfl
  · rw [assocLookup_assocInsert_ne l k v k₂ hk]
    exact h

theorem mapInsert_ok (params : Option (List (String × String))) (key value : String)
    (l : List (String × String)) (h : mapInsert params key value = .ok l) :
    ∃ l0, params = some l0 ∧ l = assocInsert l0 key value := by
  cases params with
  | none => exact Except.noConfusion h
  | some l0 =>
    simp [mapInsert] at h
    exact ⟨l0, rfl, h.symm⟩

theorem setKeyValue_ok_lookup (c : Configuration) (key value : String)
    (r : Configuration × List LogEvent)
    (h : Configuration.SetKeyValue c key value = .ok r) :
    mapLookup r.1.parameters key = some value := by
  unfold Configuration.SetKeyValue at h
  split at h
  next stored hs =>
    split at h
    next heq =>
      injection h with h2
      subst h2
      rw [hs, heq]
    next hne =>
      split at h
      · exact Except.noConfusion h
      next l hins =>
        injection h with h2
        subst h2
        obtain ⟨l0, hp, hl⟩ := mapInsert_ok _ _ _ _ hins
        subst hl
        exact assocLookup_assocInsert_self l0 key value
  next hs =>
    split at h
    · exact Except.noConfusion h
    next l hins =>
      injection h with h2
      subst h2
      obtain ⟨l0, hp, hl⟩ := mapInsert_ok _ _ _ _ hins
      subst hl
      exact assocLookup_assocInsert_self l0 key value

theorem setKeyValue_noop (c : Configuration) (key value : String)
    (h : mapLookup c.parameters key = some value) :
    Configuration.SetKeyValue c key value = .ok (c, []) := by
  unfold Configuration.SetKeyValue
  rw [h]
  simp

theorem setKeyValue_ok_lookup_isSome (c : Configuration) (key value : String)
    (r : Configuration × List LogEvent) (k : String)
    (h : Configuration.SetKeyValue c key value = .ok r)
    (hk : (mapLookup c.parameters k).isSome = true) :
    (mapLookup r.1.parameters k).isSome = true := by
  unfold Configuration.SetKeyValue at h
  split at h
  next stored hs =>
    split at h
    next heq =>
      injection h with h2
      subst h2
      exact hk
    next hne =>
      split at h
      · exact Except.noConfusion h
      next l hins =>
        injection h with h2
        subst h2
        obtain ⟨l0, hp, hl⟩ := mapInsert_ok _ _ _ _ hins
        subst hl
        rw [hp] at hk
        exact assocLookup_assocInsert_isSome l0 key value k hk
  next hs =>
    split at h
    · exact Except.noConfusion h
    next l hins =>
      injection h with h2
      subst h2
      obtain ⟨l0, hp, hl⟩ := mapInsert_ok _ _ _ _ hins
      subst hl
      rw [hp] at hk
      exact assocLookup_assocInsert_isSome l0 key value k hk

theorem applyConfigLine_ok_lookup_isSome (shouldLog : Bool)
    (params : Option (List (String × String))) (line : String)
    (r : Option (List (String × String)) × List LogEvent) (k : String)
    (h : applyConfigLine shouldLog params line = .ok r)
    (hk : (mapLookup params k).isSome = true) :
    (mapLookup r.1 k).isSome = true := by
  unfold applyConfigLine at h
  split at h
  next e hsp =>
    split at h
    · injection h with h2
      subst h2
      exact hk
    · injection h with h2
      subst h2
      exact hk
  next kv hsp =>
    split at h
    next stored hst =>
      split at h
      next heq =>
        injection h with h2
        subst h2
        exact hk
      next hne =>
        split at h
        · exact Except.noConfusion h
        next l hins =>
          injection h with h2
          subst h2
          obtain ⟨l0, hp, hl⟩ := mapInsert_ok _ _ _ _ hins
          subst hl
          rw [hp] at hk
          exact assocLookup_assocInsert_isSome l0 kv.1 kv.2 k hk
    next hst =>
      split at h
      · exact Except.noConfusion h
      next l hins =>
        injection h with h2
        subst h2
        obtain ⟨l0, hp, hl⟩ := mapInsert_ok _ _ _ _ hins
        subst hl
        rw [hp] at hk
        exact assocLookup_assocInsert_isSome l0 kv.1 kv.2 k hk

theorem applyConfigLine_ok_lookup_eq (shouldLog : Bool)
    (params : Option (List (String × String))) (line : String)
    (r : Option (List (String × String)) × List LogEvent) (k : String)
    (h : applyConfigLine shouldLog params line = .ok r)
    (hline : ∀ w, SplitConfigurationFileLine line ≠ .ok (k, w)) :
    mapLookup r.1 k = mapLookup params k := by
  unfold applyConfigLine at h
  split at h
  next e hsp =>
    split at h
    · injection h with h2
      subst h2
      rfl
    · injection h with h2
      subst h2
      rfl
  next kv hsp =>
    obtain ⟨kk, vv⟩ := kv
    have hkne : k ≠ kk := by
      intro hkk
      subst hkk
      exact hline vv hsp
    split at h
    next stored hst =>
      split at h
      next heq =>
        injection h with h2
        subst h2
        rfl
      next hne =>
        split at h
        · exact Except.noConfusion h
        next l hins =>
          injection h with h2
          subst h2
          obtain ⟨l0, hp, hl⟩ := mapInsert_ok _ _ _ _ hins
          subst hl
          rw [hp]
          exact assocLookup_assocInsert_ne l0 kk vv k hkne
    next hst =>
      split at h
      · exact Except.noConfusion h
      next l hins =>
        injection h with h2
        subst h2
        obtain ⟨l0, hp, hl⟩ := mapInsert_ok _ _ _ _ hins
        subst hl
        rw [hp]
        exact assocLookup_assocInsert_ne l0 kk vv k hkne

theorem applyConfigLines_ok_lookup_isSome (shouldLog : Bool) (k : String)
    (lines : List String) :
    ∀ params r, applyConfigLines shouldLog params lines = .ok r →
      (mapLookup params k).isSome = true → (mapLookup r.1 k).isSome = true := by
  induction lines with
  | nil =>
    intro params r h hk
    unfold applyConfigLines at h
    injection h with h2
    subst h2
    exact hk
  | cons line rest ih =>
    intro params r h hk
    unfold applyConfigLines at h
    split at h
    · exact Except.noConfusion h
    next r0 h0 =>
      split at h
      · exact Except.noConfusion h
      next r1 h1 =>
        injection h with h2
        subst h2
        exact ih r0.1 r1 h1 (applyConfigLine_ok_lookup_isSome shouldLog params line r0 k h0 hk)

theorem applyConfigLines_ok_lookup_eq (shouldLog : Bool) (k : String)
    (lines : List String) :
    ∀ params r, applyConfigLines shouldLog params lines = .ok r →
      (∀ line ∈ lines, ∀ w, SplitConfigurationFileLine line ≠ .ok (k, w)) →
      mapLookup r.1 k = mapLookup params k := by
  induction lines with
  | nil =>
    intro params r h _
    unfold applyConfigLines at h
    injection h with h2
    subst h2
    rfl
  | cons line rest ih =>
    intro params r h hl
    unfold applyConfigLines at h
    split at h
    · exact Except.noConfusion h
    next r0 h0 =>
      split at h
      · exact Except.noConfusion h
      next r1 h1 =>
        injection h with h2
        subst h2
        have e1 := applyConfigLine_ok_lookup_eq shouldLog params line r0 k h0
          (hl line (List.mem_cons_self line rest))
        have e2 := ih r0.1 r1 h1 (fun l hm w => hl l (List.mem_cons_of_mem line hm) w)
        exact e2.trans e1

theorem update_ok_shouldLog (fs : FileSystem) (c : Configuration)
    (r : Configuration × List LogEvent)
    (h : Configuration.update fs c = .ok r) :
    r.1.shouldLogUpdates = c.shouldLogUpdates := by
  unfold Configuration.update at h
  split at h
  · injection h with h2
    subst h2
    rfl
  · injection h with h2
    subst h2
    rfl
  next mt =>
    split at h
    · split at h
      · injection h with h2
        subst h2
        rfl
      next lines hlines =>
        split at h
        · exact Except.noConfusion h
        next r0 h0 =>
          injection h with h2
          subst h2
          rfl
    · injection h with h2
      subst h2
      rfl

theorem update_ok_lookup_isSome (fs : FileSystem) (c : Configuration)
    (r : Configuration × List LogEvent) (k : String)
    (h : Configuration.update fs c = .ok r)
    (hk : (mapLookup c.parameters k).isSome = true) :
    (mapLookup r.1.parameters k).isSome = true := by
  unfold Configuration.update at h
  split at h
  · injection h with h2
    subst h2
    exact hk
  · injection h with h2
    subst h2
    exact hk
  next mt =>
    split at h
    · split at h
      · injection h with h2
        subst h2
        exact hk
      next lines hlines =>
        split at h
        · exact Except.noConfusion h
        next r0 h0 =>
          injection h with h2
          subst h2
          exact applyConfigLines_ok_lookup_isSome c.shouldLogUpdates k lines c.parameters r0 h0 hk
    · injection h with h2
      subst h2
      exact hk

theorem update_ok_lookup_eq (fs : FileSystem) (c : Configuration)
    (r : Configuration × List LogEvent) (k : String) (lines : List String)
    (h : Configuration.update fs c = .ok r)
    (hrl : fs.readLines c.filename = some lines)
    (hnk : ∀ line ∈ lines, ∀ w, SplitConfigurationFileLine line ≠ .ok (k, w)) :
    mapLookup r.1.parameters k = mapLookup c.parameters k := by
  unfold Configuration.update at h
  split at h
  · injection h with h2
    subst h2
    rfl
  · injection h with h2
    subst h2
    rfl
  next mt =>
    split at h
    · split at h
      · injection h with h2
        subst h2
        rfl
      next lines' hlines =>
        rw [hrl] at hlines
        injection hlines with h3
        subst h3
        split at h
        · exact Except.noConfusion h
        next r0 h0 =>
          injection h with h2
          subst h2
          exact applyConfigLines_ok_lookup_eq c.shouldLogUpdates k lines c.parameters r0 h0 hnk
    · injection h with h2
      subst h2
      rfl

theorem dropWhile_eq_self_of_false (p : Char → Bool) (l : List Char)
    (h : ∀ c ∈ l, p c = false) : l.dropWhile p = l := by
  cases l with
  | nil => rfl
  | cons a as =>
    have ha := h a (List.mem_cons_self a as)
    simp [List.dropWhile_cons, ha]

theorem dropWhile_eq_nil_of_true (p : Char → Bool) (l : List Char)
    (h : ∀ c ∈ l, p c = true) : l.dropWhile p = [] := by
  induction l with
  | nil => rfl
  | cons a as ih =>
    have ha := h a (List.mem_cons_self a as)
    simp [List.dropWhile_cons, ha, ih (fun c hc => h c (List.mem_cons_of_mem a hc))]

theorem goTrimSpace_eq_self (s : String) (h : ∀ c ∈ s.toList, goIsSpace c = false) :
    goTrimSpace s = s := by
  cases s with
  | mk data =>
    show (⟨((data.dropWhile goIsSpace).reverse.dropWhile goIsSpace).reverse⟩ : String) = ⟨data⟩
    rw [dropWhile_eq_self_of_false goIsSpace data h]
    rw [dropWhile_eq_self_of_false goIsSpace data.reverse
      (fun c hc => h c (List.mem_reverse.mp hc))]
    rw [List.reverse_reverse]

theorem goTrimSpace_toList_eq_nil (s : String) (h : ∀ c ∈ s.toList, goIsSpace c = true) :
    (goTrimSpace s).toList = [] := by
  show ((s.toList.dropWhile goIsSpace).reverse.dropWhile goIsSpace).reverse = []
  rw [dropWhile_eq_nil_of_true goIsSpace s.toList h]
  rfl

theorem firstDelimiterIdx_spec (l : List Char) (i : Nat)
    (h : firstDelimiterIdx l = some i) :
    i < l.length ∧ isDelimiter (l.getD i ' ') = true ∧
      ∀ j, j < i → isDelimiter (l.getD j ' ') = false := by
  induction l generalizing i with
  | nil => exact Option.noConfusion h
  | cons c rest ih =>
    by_cases hc : isDelimiter c = true
    · rw [firstDelimiterIdx, if_pos hc] at h
      injection h with h2
      subst h2
      exact ⟨Nat.succ_pos _, hc, fun j hj => absurd hj (Nat.not_lt_zero j)⟩
    · rw [firstDelimiterIdx, if_neg hc] at h
      cases hr : firstDelimiterIdx rest with
      | none =>
        rw [hr] at h
        exact Option.noConfusion h
      | some i' =>
        rw [hr] at h
        simp at h
        subst h
        obtain ⟨h1, h2, h3⟩ := ih i' hr
        refine ⟨Nat.succ_lt_succ h1, by simpa using h2, ?_⟩
        intro j hj
        cases j with
        | zero =>
          simp at hc
          simpa using hc
        | succ j' =>
          have := h3 j' (Nat.lt_of_succ_lt_succ hj)
          simpa using this

theorem firstDelimiterIdx_isSome_of_mem (l : List Char) (c : Char) (hc : c ∈ l)
    (hd : isDelimiter c = true) : ∃ i, firstDelimiterIdx l = some i := by
  induction l with
  | nil => exact absurd hc (List.not_mem_nil c)
  | cons a rest ih =>
    by_cases ha : isDelimiter a = true
    · exact ⟨0, by rw [firstDelimiterIdx, if_pos ha]⟩
    · rcases List.mem_cons.mp hc with h | h
      · subst h
        exact absurd hd ha
      · obtain ⟨i, hi⟩ := ih h
        exact ⟨i + 1, by rw [firstDelimiterIdx, if_neg ha, hi]; rfl⟩

theorem firstDelimiterIdx_eq_none (l : List Char)
    (h : ∀ c ∈ l, isDelimiter c = false) : firstDelimiterIdx l = none := by
  induction l with
  | nil => rfl
  | cons a rest ih =>
    rw [firstDelimiterIdx, if_neg (by simp [h a (List.mem_cons_self a rest)]),
      ih (fun c hc => h c (List.mem_cons_of_mem a hc))]
    rfl

theorem firstDelimiterIdx_append (kl : List Char) (d : Char) (vl : List Char)
    (hk : ∀ c ∈ kl, isDelimiter c = false) (hd : isDelimiter d = true) :
    firstDelimiterIdx (kl ++ d :: vl) = some kl.length := by
  induction kl with
  | nil =>
    rw [List.nil_append, firstDelimiterIdx, if_pos hd]
    rfl
  | cons a rest ih =>
    have ha := hk a (List.mem_cons_self a rest)
    rw [List.cons_append, firstDelimiterIdx, if_neg (by simp [ha]),
      ih (fun c hc => hk c (List.mem_cons_of_mem a hc))]
    rfl

theorem take_length_append (l₁ l₂ : List Char) : (l₁ ++ l₂).take l₁.length = l₁ := by
  induction l₁ with
  | nil => rfl
  | cons a rest ih => simp [List.cons_append, ih]

theorem drop_length_cons_append (l₁ : List Char) (d : Char) (l₂ : List Char) :
    (l₁ ++ d :: l₂).drop (l₁.length + 1) = l₂ := by
  induction l₁ with
  | nil => rfl
  | cons a rest ih => simp [List.cons_append, ih]

/-- Claim C1: the claim states that `Get` and `SetKeyValue` can never
fail on a store returned by `New`/`NewWithContext`.  `Get` indeed never
fails (it returns the stored value or the zero value), but `SetKeyValue`
on the store `New` actually returns — whose `parameters` map is never
initialised — panics on its first real write: evaluated here on the
store built over an absent file. -/
theorem setKeyValue_panics_on_store_from_new :
    NewWithContext fsNone true "config.txt" [] = .ok (cNil, []) ∧
    Configuration.Get cNil "key" = "" ∧
    Configuration.SetKeyValue cNil "key" "value" = .error GoPanic.nilMapWrite :=
  ⟨rfl, rfl, rfl⟩

/-- Claim C2: the claim states that after construction over a file
containing the lines `a=1` and `b=2` the values are immediately
readable.  In fact the synchronous reconciliation performed by the
constructor writes `a ↦ 1` into the still-nil `parameters` map and
panics, so the constructor never returns a store. -/
theorem construction_panics_on_existing_file :
    fsAB.stat "config.txt" = StatResult.found 100 ∧
    fsAB.readLines "config.txt" = some ["a=1", "b=2"] ∧
    NewWithContext fsAB true "config.txt" [] = .error GoPanic.nilMapWrite :=
  ⟨rfl, rfl, rfl⟩

/-- Claim C3: the claim states a reconciliation pass sets `lastupdate`
to the observed modification time exactly when the stat succeeds, the
time is strictly newer, and the open succeeds.  On the store `New`
actually produces (nil `parameters` map), a pass over a file whose
stat and open both succeed and whose modification time is strictly
newer panics at the first stored pair instead of completing and
advancing `lastupdate`. -/
theorem reconcile_panics_despite_stat_and_open_success :
    NewWithContext fsNone true "config.txt" [] = .ok (cNil, []) ∧
    fsA1.stat cNil.filename = StatResult.found 100 ∧
    (100 : Int) > cNil.lastupdate ∧
    fsA1.readLines cNil.filename = some ["a=1"] ∧
    Configuration.update fsA1 cNil = .error GoPanic.nilMapWrite :=
  ⟨rfl, rfl, by decide, rfl, rfl⟩

/-- Claim C4: the claim states a pass re-reads and applies the file
whenever the modification time is strictly after `lastupdate`.  On the
store `New` actually produces, a strictly newer readable file is not
applied: the pass panics at the first stored pair (nil map write). -/
theorem reconcile_newer_modtime_not_applied :
    NewWithContext fsNone true "config.txt" [] = .ok (cNil, []) ∧
    fsB2.stat cNil.filename = StatResult.found 7 ∧
    (7 : Int) > cNil.lastupdate ∧
    fsB2.readLines cNil.filename = some ["b=2"] ∧
    Configuration.Update fsB2 cNil = .error GoPanic.nilMapWrite :=
  ⟨rfl, rfl, by decide, rfl, rfl⟩

/-- Claim C5: the claim states `SetFilename` with a different path
loads the new file's contents so they are visible to the next `Get`.
On the store `New` actually produces, switching to a readable file
containing `k=v` panics at the first stored pair (nil map write)
instead of loading it. -/
theorem setFilename_panics_loading_new_file :
    NewWithContext fsNone true "config.txt" [] = .ok (cNil, []) ∧
    cNil.filename ≠ "new.txt" ∧
    fsNew.stat "new.txt" = StatResult.found 50 ∧
    fsNew.readLines "new.txt" = some ["k=v"] ∧
    Configuration.SetFilename fsNew cNil "new.txt" = .error GoPanic.nilMapWrite :=
  ⟨rfl, by decide, rfl, rfl, rfl⟩

/-- Claim C6: for every line whose trimmed form contains a delimiter,
the parser succeeds, splitting the trimmed line at the positionally
first `=` or `:` into untouched key and value; in particular a line
that is exactly `k=v` or `k:v` (delimiter-free, whitespace-free key,
whitespace-free value) yields `k` and `v` exactly. -/
theorem split_line_first_delimiter (s : String) (kl vl : List Char) :
    ((∃ c ∈ (goTrimSpace s).toList, isDelimiter c = true) →
      ∃ i, i < (goTrimSpace s).toList.length ∧
        isDelimiter ((goTrimSpace s).toList.getD i ' ') = true ∧
        (∀ j, j < i → isDelimiter ((goTrimSpace s).toList.getD j ' ') = false) ∧
        SplitConfigurationFileLine s =
          .ok (⟨(goTrimSpace s).toList.take i⟩, ⟨(goTrimSpace s).toList.drop (i + 1)⟩)) ∧
    ((∀ c ∈ kl, isDelimiter c = false ∧ goIsSpace c = false) →
     (∀ c ∈ vl, goIsSpace c = false) →
      SplitConfigurationFileLine ⟨kl ++ '=' :: vl⟩ = .ok (⟨kl⟩, ⟨vl⟩) ∧
      SplitConfigurationFileLine ⟨kl ++ ':' :: vl⟩ = .ok (⟨kl⟩, ⟨vl⟩)) := by
  constructor
  · intro hex
    obtain ⟨c, hcmem, hcdel⟩ := hex
    obtain ⟨i, hi⟩ := firstDelimiterIdx_isSome_of_mem _ c hcmem hcdel
    obtain ⟨h1, h2, h3⟩ := firstDelimiterIdx_spec _ i hi
    refine ⟨i, h1, h2, h3, ?_⟩
    have hne : (goTrimSpace s).toList ≠ [] :=
      List.ne_nil_of_length_pos (Nat.lt_of_le_of_lt (Nat.zero_le i) h1)
    unfold SplitConfigurationFileLine
    rw [hi, if_neg (by simp only [List.isEmpty_eq_true]; exact hne)]
  · intro hk hv
    have mkline : ∀ d : Char, isDelimiter d = true → goIsSpace d = false →
        SplitConfigurationFileLine ⟨kl ++ d :: vl⟩ = .ok (⟨kl⟩, ⟨vl⟩) := by
      intro d hd hds
      have hall : ∀ c ∈ kl ++ d :: vl, goIsSpace c = false := by
        intro c hc
        rcases List.mem_append.mp hc with h | h
        · exact (hk c h).2
        · rcases List.mem_cons.mp h with h | h
          · rw [h]
            exact hds
          · exact hv c h
      have htrim : goTrimSpace ⟨kl ++ d :: vl⟩ = ⟨kl ++ d :: vl⟩ :=
        goTrimSpace_eq_self _ hall
      have hne : kl ++ d :: vl ≠ [] := by
        cases kl <;> simp
      unfold SplitConfigurationFileLine
      rw [htrim, toList_mk, if_neg (by simp [hne]),
        firstDelimiterIdx_append kl d vl (fun c hc => (hk c hc).1) hd]
      show Except.ok (⟨(kl ++ d :: vl).take kl.length⟩, ⟨(kl ++ d :: vl).drop (kl.length + 1)⟩) =
        Except.ok ((⟨kl⟩ : String), (⟨vl⟩ : String))
      rw [take_length_append kl (d :: vl), drop_length_cons_append kl d vl]
    exact ⟨mkline '=' (by decide) (by decide), mkline ':' (by decide) (by decide)⟩

/-- Witness for the claim C6 theorem at concrete inputs: the line
`a=b`, and the key/value pair `k`, `v` under each delimiter. -/
theorem split_line_first_delimiter_witness :
    (∃ i, i < (goTrimSpace "a=b").toList.length ∧
      isDelimiter ((goTrimSpace "a=b").toList.getD i ' ') = true ∧
      (∀ j, j < i → isDelimiter ((goTrimSpace "a=b").toList.getD j ' ') = false) ∧
      SplitConfigurationFileLine "a=b" =
        .ok (⟨(goTrimSpace "a=b").toList.take i⟩, ⟨(goTrimSpace "a=b").toList.drop (i + 1)⟩)) ∧
    SplitConfigurationFileLine ⟨['k'] ++ '=' :: ['v']⟩ = .ok (⟨['k']⟩, ⟨['v']⟩) ∧
    SplitConfigurationFileLine ⟨['k'] ++ ':' :: ['v']⟩ = .ok (⟨['k']⟩, ⟨['v']⟩) := by
  refine ⟨(split_line_first_delimiter "a=b" ['k'] ['v']).1 ⟨'=', by decide, by decide⟩, ?_, ?_⟩
  · exact ((split_line_first_delimiter "a=b" ['k'] ['v']).2 (by decide) (by decide)).1
  · exact ((split_line_first_delimiter "a=b" ['k'] ['v']).2 (by decide) (by decide)).2

/-- Claim C7: a whitespace-only (or empty) line fails with the
`ErrEmptyParameter` error, a non-empty trimmed line with no `=` or `:`
fails with the missing-delimiter error, and the two failure kinds are
distinct, hence distinguishable by the caller. -/
theorem split_line_failure_classification (s : String) :
    ((∀ c ∈ s.toList, goIsSpace c = true) →
      SplitConfigurationFileLine s = .error SplitError.emptyParameter) ∧
    ((goTrimSpace s).toList ≠ [] →
     (∀ c ∈ (goTrimSpace s).toList, isDelimiter c = false) →
      SplitConfigurationFileLine s = .error SplitError.missingDelimiter) ∧
    SplitError.emptyParameter ≠ SplitError.missingDelimiter := by
  refine ⟨?_, ?_, by decide⟩
  · intro h
    unfold SplitConfigurationFileLine
    rw [if_pos (by simp only [List.isEmpty_eq_true]; exact goTrimSpace_toList_eq_nil s h)]
  · intro hne hnd
    unfold SplitConfigurationFileLine
    rw [firstDelimiterIdx_eq_none _ hnd, if_neg (by simp only [List.isEmpty_eq_true]; exact hne)]

/-- Witness for the claim C7 theorem: a whitespace-only line and a
delimiter-free line. -/
theorem split_line_failure_classification_witness :
    SplitConfigurationFileLine "  " = .error SplitError.emptyParameter ∧
    SplitConfigurationFileLine "abc" = .error SplitError.missingDelimiter :=
  ⟨(split_line_failure_classification "  ").1 (by decide),
   (split_line_failure_classification "abc").2.1 (by decide) (by decide)⟩

/-- Claim C8: if the parameters mapping already maps the key to exactly
this value, `SetKeyValue` is a no-op with no log event; consequently,
whenever one `SetKeyValue` completes normally, repeating it with the
same key and value changes nothing and logs nothing. -/
theorem setKeyValue_noop_idempotent (c : Configuration) (key value : String) :
    (mapLookup c.parameters key = some value →
      Configuration.SetKeyValue c key value = .ok (c, [])) ∧
    (∀ r, Configuration.SetKeyValue c key value = .ok r →
      Configuration.SetKeyValue r.1 key value = .ok (r.1, [])) := by
  refine ⟨setKeyValue_noop c key value, ?_⟩
  intro r h
  exact setKeyValue_noop r.1 key value (setKeyValue_ok_lookup c key value r h)

/-- Witness for the claim C8 theorem: a store already holding `k ↦ v`,
and a second set after a completed first set. -/
theorem setKeyValue_noop_idempotent_witness :
    Configuration.SetKeyValue cKV "k" "v" = .ok (cKV, []) ∧
    Configuration.SetKeyValue cASome "a" "b" = .ok (cASome, []) := by
  constructor
  · exact (setKeyValue_noop_idempotent cKV "k" "v").1 rfl
  · exact (setKeyValue_noop_idempotent cEmptyMap "a" "b").2
      (cASome, [LogEvent.setStored "a" "b"]) rfl

/-- Claim C9: no operation that completes normally ever removes a key
from the parameters mapping — `SetKeyValue`, a reconciliation pass
(`update`, also run by the public `Update`), and `SetFilename` only add
or overwrite entries; moreover, after `SetFilename`, a key that no line
of the newly read file supplies keeps its old value. -/
theorem operations_never_remove_keys (fs : FileSystem) (c : Configuration)
    (fn k v key value : String) :
    ((mapLookup c.parameters k).isSome = true →
      ∀ r, Configuration.SetKeyValue c key value = .ok r →
        (mapLookup r.1.parameters k).isSome = true) ∧
    ((mapLookup c.parameters k).isSome = true →
      ∀ r, Configuration.update fs c = .ok r →
        (mapLookup r.1.parameters k).isSome = true) ∧
    ((mapLookup c.parameters k).isSome = true →
      ∀ r, Configuration.SetFilename fs c fn = .ok r →
        (mapLookup r.1.parameters k).isSome = true) ∧
    (∀ r lines, Configuration.SetFilename fs c fn = .ok r →
      fs.readLines fn = some lines →
      (∀ line ∈ lines, ∀ w, SplitConfigurationFileLine line ≠ .ok (k, w)) →
      mapLookup c.parameters k = some v →
      mapLookup r.1.parameters k = some v) := by
  have hp' : (if c.filename ≠ fn then { c with filename := fn, lastupdate := 0 }
      else c).parameters = c.parameters := by
    split <;> rfl
  have hfn : (if c.filename ≠ fn then { c with filename := fn, lastupdate := 0 }
      else c).filename = fn := by
    split
    · rfl
    next hcf => exact not_not.mp hcf
  refine ⟨?_, ?_, ?_, ?_⟩
  · intro hk r h
    exact setKeyValue_ok_lookup_isSome c key value r k h hk
  · intro hk r h
    exact update_ok_lookup_isSome fs c r k h hk
  · intro hk r h
    unfold Configuration.SetFilename at h
    exact update_ok_lookup_isSome fs _ r k h (by rw [hp']; exact hk)
  · intro r lines h hrl hnk hkv
    unfold Configuration.SetFilename at h
    have he := update_ok_lookup_eq fs _ r k lines h (by rw [hfn]; exact hrl) hnk
    rw [he, hp']
    exact hkv

/-- Witness for the claim C9 theorem: the key `k ↦ v` survives a
`SetKeyValue` of another key and a reconciliation pass that loads
`a=1`. -/
theorem operations_never_remove_keys_witness :
    (mapLookup cKVxy.parameters "k").isSome = true ∧
    (mapLookup cKV1.parameters "k").isSome = true := by
  constructor
  · exact (operations_never_remove_keys fsA1 cKV "x" "k" "v" "x" "y").1 (by decide)
      (cKVxy, [LogEvent.setStored "x" "y"]) rfl
  · exact (operations_never_remove_keys fsA1 cKV "x" "k" "v" "x" "y").2.1 (by decide)
      (cKV1, [LogEvent.updateStored "a" "1"]) rfl

/-- Claim C10: for every construction that returns a store, the logging
toggle is the single supplied variadic value when exactly one was
passed, and the process-wide default when zero or two or more were
passed. -/
theorem constructor_logging_toggle (fs : FileSystem) (dflt : Bool) (fn : String)
    (sl : List Bool) (b : Bool) :
    (∀ r, NewWithContext fs dflt fn [b] = .ok r → r.1.shouldLogUpdates = b) ∧
    (sl.length ≠ 1 →
      ∀ r, NewWithContext fs dflt fn sl = .ok r → r.1.shouldLogUpdates = dflt) := by
  constructor
  · intro r h
    unfold NewWithContext at h
    exact update_ok_shouldLog fs _ r h
  · intro hlen r h
    unfold NewWithContext at h
    have hs := update_ok_shouldLog fs _ r h
    rw [hs]
    show initialShouldLog dflt sl = dflt
    cases sl with
    | nil => rfl
    | cons x t =>
      cases t with
      | nil => exact absurd rfl hlen
      | cons y t2 => rfl

/-- Witness for the claim C10 theorem: one variadic value `false`
honoured; zero values falling back to the default `true`. -/
theorem constructor_logging_toggle_witness :
    cW1.shouldLogUpdates = false ∧ cNil.shouldLogUpdates = true := by
  constructor
  · exact (constructor_logging_toggle fsNone true "f" [] false).1 (cW1, []) rfl
  · exact (constructor_logging_toggle fsNone true "config.txt" [] true).2 (by decide)
      (cNil, []) rfl
